import Mathlib

/-!
Formal model of the terminal snake game implemented in `src/main.rs`,
together with theorems about its per-tick update behaviour.

Modelling conventions:
* Coordinates are `u32` in the source; they are modelled as `Nat`, with the
  wrapping successor/predecessor (`% 2^32`) made explicit in `u32succ` and
  `u32pred` at the only places where the source performs `u32` arithmetic
  that could wrap (the head offset in `Game::step_forward`).  All other
  subtractions (`width - 1`, `height - 2`, ...) occur under hypotheses that
  keep them in range, where `Nat` subtraction agrees with `u32`.
* The snake is a `VecDeque<SnakePart>` with front = tail and back = head;
  it is modelled as a `List SnakePart` whose first element is the deque
  front, so `pop_front` is `List.tail`, `push_front` is `List.cons`,
  `push_back` appends, and `back` is the last element.
* The global random generator (`rand::thread_rng`) lives outside this
  repository; following the spec's randomness capability ("next integer in
  range [lo, hi)") it is injected as a stream (`List Nat`) of raw draws,
  each mapped into the requested interval by `genRange`.
* Terminal input (`ncurses::getch() as u8`) is modelled as the `Nat` value
  of the resulting byte, matched against the same key codes as the source:
  27 = Escape, 114/82 = r/R, 119/87 = w/W, 97/65 = a/A, 115/83 = s/S,
  100/68 = d/D.
-/

def U32MOD : Nat := 4294967296

def u32succ (n : Nat) : Nat := (n + 1) % U32MOD

def u32pred (n : Nat) : Nat := (n + (U32MOD - 1)) % U32MOD

inductive Movement where
  | Up
  | Down
  | Left
  | Right
deriving DecidableEq

inductive EntityType where
  | Wall
  | Food
deriving DecidableEq

structure Entity where
  entity_type : EntityType
  x : Nat
  y : Nat
deriving DecidableEq

structure SnakePart where
  x : Nat
  y : Nat
deriving DecidableEq

structure Game where
  is_running : Bool
  is_alive : Bool
  width : Nat
  height : Nat
  movement : Option Movement
  entities : List Entity
  snake : List SnakePart
deriving DecidableEq

/-- Modelled from the spec: the random source (the external `rand` crate's
`gen_range(lo..hi)`) is described in the spec as a capability with one
operation, "next integer in range [lo, hi)".  We model it as consuming one
raw draw `v` from an injected stream and folding it into the interval;
for `lo < hi` the result always lies in `[lo, hi)` and every value of that
interval is realised by some draw. -/
def genRange (lo hi v : Nat) : Nat := lo + v % (hi - lo)

/-- The top and bottom wall rows pushed by the first loop of
`Game::init_field` (`for x in 0..width`, pushing `(x, 0)` then
`(x, height-1)`). -/
def wallsTopBottom (w h : Nat) : List Entity :=
  (List.range w).flatMap (fun x => [⟨.Wall, x, 0⟩, ⟨.Wall, x, h - 1⟩])

/-- The left and right wall columns pushed by the second loop of
`Game::init_field` (`for y in 1..height-1`, pushing `(0, y)` then
`(width-1, y)`). -/
def wallsSides (w h : Nat) : List Entity :=
  (List.range' 1 (h - 1 - 1)).flatMap (fun y => [⟨.Wall, 0, y⟩, ⟨.Wall, w - 1, y⟩])

/-- `Game::init_field`: reset alive/movement, rebuild the border walls, draw
one food position (x drawn first, then y) and place a single snake segment
at the grid centre.  Returns the new state and the unconsumed rest of the
random stream. -/
def init_field (g : Game) (rng : List Nat) : Game × List Nat :=
  ({ g with
      is_alive := true
      movement := none
      entities := wallsTopBottom g.width g.height ++ wallsSides g.width g.height ++
        [⟨.Food, genRange 2 (g.width - 2) (rng.headD 0),
          genRange 2 (g.height - 2) (rng.tail.headD 0)⟩]
      snake := [⟨g.width / 2, g.height / 2⟩] },
    rng.tail.tail)

/-- The coordinate one cell from `p` in direction `d`, with the wrapping
`u32` arithmetic of the source (`y - 1`, `y + 1`, `x - 1`, `x + 1`). -/
def stepPos (d : Movement) (p : SnakePart) : SnakePart :=
  match d with
  | .Up => ⟨p.x, u32pred p.y⟩
  | .Down => ⟨p.x, u32succ p.y⟩
  | .Left => ⟨u32pred p.x, p.y⟩
  | .Right => ⟨u32succ p.x, p.y⟩

/-- The snake's head: `snake.back().unwrap()`.  The default is never used on
the states the game actually reaches (the snake is non-empty there). -/
def lastD (s : List SnakePart) : SnakePart := s.getLastD ⟨0, 0⟩

/-- `Game::step_forward`: read the head (back), pop the tail (front); with a
movement direction push a new offset head at the back, with `None` push the
popped tail back at the front (so the list is unchanged). -/
def step_forward (m : Option Movement) (s : List SnakePart) : List SnakePart :=
  match m with
  | some d => s.tail ++ [stepPos d (lastD s)]
  | none => s

/-- Result of the entity scan loop in `Game::update`: the mutated entity
list, the grow flag, whether a wall was hit (the source returns from
`update` at that point), and the unconsumed random stream. -/
structure ScanResult where
  entities : List Entity
  grow : Bool
  died : Bool
  rng : List Nat
deriving DecidableEq

/-- The `for entity in self.entities.iter_mut()` loop of `Game::update`:
an entity at the head coordinate is relocated (food: fresh coordinates from
the random source, grow flag set, scan continues) or kills the snake
(wall: the source returns immediately, leaving the remaining entities
untouched).  The matched entity in the food arm has type `Food`, so the
relocated entity is a food with fresh coordinates. -/
def scanEntities (hd : SnakePart) (w h : Nat) : List Entity → Bool → List Nat → ScanResult
  | [], grow, rng => ⟨[], grow, false, rng⟩
  | e :: es, grow, rng =>
    if e.x = hd.x ∧ e.y = hd.y then
      match e.entity_type with
      | .Food =>
        let fx := genRange 2 (w - 2) (rng.headD 0)
        let fy := genRange 2 (h - 2) (rng.tail.headD 0)
        let r := scanEntities hd w h es true rng.tail.tail
        ⟨⟨.Food, fx, fy⟩ :: r.entities, r.grow, r.died, r.rng⟩
      | .Wall => ⟨e :: es, grow, true, rng⟩
    else
      let r := scanEntities hd w h es grow rng
      ⟨e :: r.entities, r.grow, r.died, r.rng⟩

/-- The self-collision loop of `Game::update`:
`snake.iter().take(snake.len() - 1)` over the post-step snake, compared
against the new head. -/
def selfCollideB (s : List SnakePart) (hd : SnakePart) : Bool :=
  s.dropLast.any (fun p => p.x == hd.x && p.y == hd.y)

/-- The simulation part of `Game::update` (everything after the
`if !self.is_alive return` guard): advance the snake, scan entities at the
new head, check self-collision, and on grow push a placeholder
`SnakePart{x:0, y:0}` at the front and advance again. -/
def simStep (g : Game) (rng : List Nat) : Game × List Nat :=
  let s1 := step_forward g.movement g.snake
  let hd := lastD s1
  let r := scanEntities hd g.width g.height g.entities false rng
  if r.died then
    ({ g with snake := s1, entities := r.entities, is_alive := false }, r.rng)
  else if selfCollideB s1 hd then
    ({ g with snake := s1, entities := r.entities, is_alive := false }, r.rng)
  else if r.grow then
    ({ g with snake := step_forward g.movement (⟨0, 0⟩ :: s1), entities := r.entities }, r.rng)
  else
    ({ g with snake := s1, entities := r.entities }, r.rng)

/-- The four directional arms of the key match in `Game::update`
(`w/W`, `a/A`, `s/S`, `d/D`), each guarded by "current movement is not the
exact opposite", plus the no-op default arm. -/
def applyDir (m : Option Movement) (key : Nat) : Option Movement :=
  if key = 119 ∨ key = 87 then (if m ≠ some .Down then some .Up else m)
  else if key = 97 ∨ key = 65 then (if m ≠ some .Right then some .Left else m)
  else if key = 115 ∨ key = 83 then (if m ≠ some .Up then some .Down else m)
  else if key = 100 ∨ key = 68 then (if m ≠ some .Left then some .Right else m)
  else m

/-- The key match at the top of `Game::update`: Escape stops the outer
loop, `r/R` re-initialises the field only when dead, and the directional
arms update `movement` through `applyDir` (which is the identity on
unrecognised keys, matching the source's `_ => {}` arm). -/
def handleInput (g : Game) (key : Nat) (rng : List Nat) : Game × List Nat :=
  if key = 27 then ({ g with is_running := false }, rng)
  else if key = 114 ∨ key = 82 then
    (if g.is_alive = false then init_field g rng else (g, rng))
  else ({ g with movement := applyDir g.movement key }, rng)

/-- `Game::update`: handle the key, then — unless the (possibly just
re-initialised) state is dead — run the simulation step. -/
def update (g : Game) (key : Nat) (rng : List Nat) : Game × List Nat :=
  let p := handleInput g key rng
  if p.1.is_alive then simStep p.1 p.2 else p

/-- `Game::new`: the hard-coded initial record (width 40, height 20,
running and alive, no movement) followed by `init_field`. -/
def gameNew (rng : List Nat) : Game × List Nat :=
  init_field
    { is_running := true, is_alive := true, width := 40, height := 20,
      movement := none, entities := [], snake := [] } rng

/-- States reachable from `Game::new` by any sequence of ticks, each tick
seeing an arbitrary key and an arbitrary random stream. -/
inductive Reachable : Game → Prop where
  | new_game (rng : List Nat) : Reachable (gameNew rng).1
  | tick (g : Game) (key : Nat) (rng : List Nat) : Reachable g → Reachable (update g key rng).1

def isWallE (e : Entity) : Bool :=
  match e.entity_type with
  | .Wall => true
  | .Food => false

def isFoodE (e : Entity) : Bool :=
  match e.entity_type with
  | .Wall => false
  | .Food => true

/-- Is there a food entity at coordinate `(x, y)`? -/
def foodAt (es : List Entity) (x y : Nat) : Bool :=
  es.any (fun e => isFoodE e && e.x == x && e.y == y)

/-- Is there a wall entity at coordinate `(x, y)`? -/
def wallAt (es : List Entity) (x y : Nat) : Bool :=
  es.any (fun e => isWallE e && e.x == x && e.y == y)

/-- The interior margin from which food coordinates are drawn:
`[2, width-2) × [2, height-2)`. -/
def interiorCoord (w h x y : Nat) : Prop :=
  2 ≤ x ∧ x < w - 2 ∧ 2 ≤ y ∧ y < h - 2

/-- The border coordinates covered by walls: the full top and bottom rows
and the two side columns for interior `y`. -/
def borderCoord (w h x y : Nat) : Prop :=
  (y = 0 ∧ x < w) ∨ (y = h - 1 ∧ x < w) ∨
    (x = 0 ∧ 1 ≤ y ∧ y ≤ h - 2) ∨ (x = w - 1 ∧ 1 ≤ y ∧ y ≤ h - 2)

/-- Every food entity of the list lies in the interior margin. -/
def foodsInRange (w h : Nat) (es : List Entity) : Prop :=
  ∀ e ∈ es, isFoodE e = true → interiorCoord w h e.x e.y

/-- Every wall entity of the list lies on the border. -/
def wallsOnBorder (w h : Nat) (es : List Entity) : Prop :=
  ∀ e ∈ es, isWallE e = true → borderCoord w h e.x e.y

/-! Basic lemmas about the snake primitive `step_forward`. -/

lemma lastD_concat (s : List SnakePart) (p : SnakePart) : lastD (s ++ [p]) = p := by
  simp [lastD, List.getLastD_concat]

lemma lastD_cons_of_ne_nil {s : List SnakePart} (p : SnakePart) (hs : s ≠ []) :
    lastD (p :: s) = lastD s := by
  induction s generalizing p with
  | nil => exact absurd rfl hs
  | cons q s ih =>
    rcases s with _ | ⟨r, s⟩
    · rfl
    · simp only [lastD, List.getLastD_cons]

lemma step_forward_some (d : Movement) (s : List SnakePart) :
    step_forward (some d) s = s.tail ++ [stepPos d (lastD s)] := rfl

lemma lastD_step_forward_some (d : Movement) (s : List SnakePart) :
    lastD (step_forward (some d) s) = stepPos d (lastD s) := by
  rw [step_forward_some, lastD_concat]

lemma step_forward_ne_nil (m : Option Movement) {s : List SnakePart} (hs : s ≠ []) :
    step_forward m s ≠ [] := by
  cases m with
  | none => exact hs
  | some d => simp [step_forward]

lemma length_step_forward (m : Option Movement) {s : List SnakePart} (hs : s ≠ []) :
    (step_forward m s).length = s.length := by
  cases m with
  | none => rfl
  | some d =>
    rcases s with _ | ⟨q, s⟩
    · exact absurd rfl hs
    · simp [step_forward]

lemma length_step_forward_cons (m : Option Movement) (p : SnakePart) (s : List SnakePart) :
    (step_forward m (p :: s)).length = s.length + 1 := by
  have := @length_step_forward m (p :: s) (by simp)
  simpa using this

/-! Structural lemmas about input handling and the simulation step. -/

lemma handleInput_alive (g : Game) (key : Nat) (rng : List Nat) (ha : g.is_alive = true) :
    handleInput g key rng =
      ({ g with is_running := if key = 27 then false else g.is_running,
                movement := applyDir g.movement key }, rng) := by
  by_cases h27 : key = 27
  · subst h27
    simp [handleInput, applyDir]
  · by_cases hr : key = 114 ∨ key = 82
    · rcases hr with rfl | rfl <;> simp [handleInput, applyDir, ha] <;> (cases g; simp_all)
    · simp [handleInput, h27, hr]

lemma handleInput_not_special (g : Game) (key : Nat) (rng : List Nat)
    (h27 : key ≠ 27) (hr : ¬(key = 114 ∨ key = 82)) :
    handleInput g key rng = ({ g with movement := applyDir g.movement key }, rng) := by
  unfold handleInput
  split_ifs <;> simp_all

lemma simStep_entities (g : Game) (rng : List Nat) :
    (simStep g rng).1.entities =
      (scanEntities (lastD (step_forward g.movement g.snake)) g.width g.height
        g.entities false rng).entities := by
  simp only [simStep]
  split_ifs <;> rfl

lemma simStep_movement (g : Game) (rng : List Nat) :
    (simStep g rng).1.movement = g.movement := by
  simp only [simStep]
  split_ifs <;> rfl

lemma simStep_width (g : Game) (rng : List Nat) : (simStep g rng).1.width = g.width := by
  simp only [simStep]
  split_ifs <;> rfl

lemma simStep_height (g : Game) (rng : List Nat) : (simStep g rng).1.height = g.height := by
  simp only [simStep]
  split_ifs <;> rfl

lemma simStep_snake_ne_nil (g : Game) (rng : List Nat) (hs : g.snake ≠ []) :
    (simStep g rng).1.snake ≠ [] := by
  simp only [simStep]
  split_ifs
  · exact step_forward_ne_nil _ hs
  · exact step_forward_ne_nil _ hs
  · exact step_forward_ne_nil _ (by simp)
  · exact step_forward_ne_nil _ hs

/-! Lemmas about the entity scan loop and the random interval. -/

lemma genRange_bounds {lo hi : Nat} (v : Nat) (hlt : lo < hi) :
    lo ≤ genRange lo hi v ∧ genRange lo hi v < hi := by
  have h0 : 0 < hi - lo := Nat.sub_pos_of_lt hlt
  have hm := Nat.mod_lt v h0
  unfold genRange
  omega

lemma wallAt_iff {es : List Entity} {x y : Nat} :
    wallAt es x y = true ↔ ∃ e ∈ es, isWallE e = true ∧ e.x = x ∧ e.y = y := by
  simp [wallAt, List.any_eq_true, and_assoc]

lemma foodAt_iff {es : List Entity} {x y : Nat} :
    foodAt es x y = true ↔ ∃ e ∈ es, isFoodE e = true ∧ e.x = x ∧ e.y = y := by
  simp [foodAt, List.any_eq_true, and_assoc]

lemma scan_died_iff (hd : SnakePart) (w h : Nat) (es : List Entity) (b : Bool) (rng : List Nat) :
    (scanEntities hd w h es b rng).died = true ↔ wallAt es hd.x hd.y = true := by
  induction es generalizing b rng with
  | nil => simp [scanEntities, wallAt]
  | cons e es ih =>
    by_cases hc : e.x = hd.x ∧ e.y = hd.y
    · obtain ⟨hcx, hcy⟩ := hc
      rcases het : e.entity_type
      · simp [scanEntities, hcx, hcy, het, wallAt, isWallE]
      · simp [scanEntities, hcx, hcy, het, wallAt, isWallE, ih]
    · simp only [scanEntities, if_neg hc]
      rw [ih, wallAt_iff, wallAt_iff]
      constructor
      · rintro ⟨a, hma, hwa, hax, hay⟩
        exact ⟨a, List.mem_cons_of_mem _ hma, hwa, hax, hay⟩
      · rintro ⟨a, hma, hwa, hax, hay⟩
        rcases List.mem_cons.1 hma with rfl | hma
        · exact absurd ⟨hax, hay⟩ hc
        · exact ⟨a, hma, hwa, hax, hay⟩

lemma scan_grow_eq (hd : SnakePart) (w h : Nat) (es : List Entity) (b : Bool) (rng : List Nat)
    (hnd : (scanEntities hd w h es b rng).died = false) :
    (scanEntities hd w h es b rng).grow = (b || foodAt es hd.x hd.y) := by
  induction es generalizing b rng with
  | nil => simp [scanEntities, foodAt]
  | cons e es ih =>
    by_cases hc : e.x = hd.x ∧ e.y = hd.y
    · obtain ⟨hcx, hcy⟩ := hc
      rcases het : e.entity_type
      · simp [scanEntities, hcx, hcy, het] at hnd
      · simp only [scanEntities, hcx, hcy, het, and_self, if_true] at hnd ⊢
        rw [ih _ _ hnd]
        simp [foodAt, isFoodE, het, hcx, hcy]
    · simp only [scanEntities, if_neg hc] at hnd ⊢
      rw [ih _ _ hnd]
      have he : (isFoodE e && e.x == hd.x && e.y == hd.y) = false := by
        by_cases h1 : e.x = hd.x
        · by_cases h2 : e.y = hd.y
          · exact absurd ⟨h1, h2⟩ hc
          · simp [h2]
        · simp [h1]
      simp [foodAt, he]

lemma scan_mem (hd : SnakePart) {w h : Nat} (hw : 5 ≤ w) (hh : 5 ≤ h)
    (es : List Entity) (b : Bool) (rng : List Nat) :
    ∀ e ∈ (scanEntities hd w h es b rng).entities,
      e ∈ es ∨ (isFoodE e = true ∧ interiorCoord w h e.x e.y) := by
  induction es generalizing b rng with
  | nil => simp [scanEntities]
  | cons a es ih =>
    intro e he
    by_cases hc : a.x = hd.x ∧ a.y = hd.y
    · obtain ⟨hcx, hcy⟩ := hc
      rcases het : a.entity_type
      · simp only [scanEntities, hcx, hcy, and_self, if_true, het] at he
        exact .inl he
      · simp only [scanEntities, hcx, hcy, and_self, if_true, het, List.mem_cons] at he
        rcases he with rfl | he
        · refine .inr ⟨rfl, ?_⟩
          have hx := @genRange_bounds 2 (w - 2) (rng.headD 0) (by omega)
          have hy := @genRange_bounds 2 (h - 2) (rng.tail.headD 0) (by omega)
          exact ⟨hx.1, hx.2, hy.1, hy.2⟩
        · rcases ih true rng.tail.tail e he with hmem | hfood
          · exact .inl (List.mem_cons_of_mem _ hmem)
          · exact .inr hfood
    · simp only [scanEntities, if_neg hc, List.mem_cons] at he
      rcases he with rfl | he
      · exact .inl (List.mem_cons_self _ _)
      · rcases ih b rng e he with hmem | hfood
        · exact .inl (List.mem_cons_of_mem _ hmem)
        · exact .inr hfood

/-! Lemmas about the wall border built by `init_field`. -/

lemma mem_wallsTopBottom {w h : Nat} {e : Entity} :
    e ∈ wallsTopBottom w h ↔
      ∃ x, x < w ∧ (e = ⟨.Wall, x, 0⟩ ∨ e = ⟨.Wall, x, h - 1⟩) := by
  simp [wallsTopBottom, List.mem_flatMap, List.mem_range]

lemma mem_wallsSides {w h : Nat} {e : Entity} :
    e ∈ wallsSides w h ↔
      ∃ y, 1 ≤ y ∧ y < 1 + (h - 1 - 1) ∧ (e = ⟨.Wall, 0, y⟩ ∨ e = ⟨.Wall, w - 1, y⟩) := by
  simp [wallsSides, List.mem_flatMap, List.mem_range'_1, and_assoc]

lemma walls_are_walls {w h : Nat} {e : Entity}
    (he : e ∈ wallsTopBottom w h ∨ e ∈ wallsSides w h) : isWallE e = true := by
  rcases he with he | he
  · rcases mem_wallsTopBottom.1 he with ⟨x, _, rfl | rfl⟩ <;> rfl
  · rcases mem_wallsSides.1 he with ⟨y, _, _, rfl | rfl⟩ <;> rfl

lemma filter_foods_wallsTopBottom (w h : Nat) :
    (wallsTopBottom w h).filter isFoodE = [] := by
  rw [List.filter_eq_nil_iff]
  intro e he
  rcases mem_wallsTopBottom.1 he with ⟨x, _, rfl | rfl⟩ <;> simp [isFoodE]

lemma filter_foods_wallsSides (w h : Nat) :
    (wallsSides w h).filter isFoodE = [] := by
  rw [List.filter_eq_nil_iff]
  intro e he
  rcases mem_wallsSides.1 he with ⟨y, _, _, rfl | rfl⟩ <;> simp [isFoodE]

lemma wallAt_init_iff {w h x y : Nat} (hw : 5 ≤ w) (hh : 5 ≤ h) (f : Entity)
    (hf : isFoodE f = true) :
    wallAt (wallsTopBottom w h ++ wallsSides w h ++ [f]) x y = true ↔
      borderCoord w h x y := by
  rw [wallAt_iff]
  constructor
  · rintro ⟨e, hme, hwe, rfl, rfl⟩
    rcases List.mem_append.1 hme with hme | hme
    · rcases List.mem_append.1 hme with hme | hme
      · rcases mem_wallsTopBottom.1 hme with ⟨x', hx', rfl | rfl⟩
        · exact Or.inl ⟨rfl, hx'⟩
        · exact Or.inr (Or.inl ⟨rfl, hx'⟩)
      · rcases mem_wallsSides.1 hme with ⟨y', h1, h2, rfl | rfl⟩
        · exact Or.inr (Or.inr (Or.inl ⟨rfl, h1, by show y' ≤ h - 2; omega⟩))
        · exact Or.inr (Or.inr (Or.inr ⟨rfl, h1, by show y' ≤ h - 2; omega⟩))
    · have hef := List.mem_singleton.1 hme
      subst hef
      cases hft : e.entity_type
      · simp [isFoodE, hft] at hf
      · simp [isWallE, hft] at hwe
  · intro hb
    rcases hb with ⟨rfl, hx⟩ | ⟨rfl, hx⟩ | ⟨rfl, h1, h2⟩ | ⟨rfl, h1, h2⟩
    · exact ⟨⟨.Wall, x, 0⟩, by
        refine List.mem_append.2 (Or.inl (List.mem_append.2 (Or.inl ?_)))
        exact mem_wallsTopBottom.2 ⟨x, hx, Or.inl rfl⟩, rfl, rfl, rfl⟩
    · exact ⟨⟨.Wall, x, h - 1⟩, by
        refine List.mem_append.2 (Or.inl (List.mem_append.2 (Or.inl ?_)))
        exact mem_wallsTopBottom.2 ⟨x, hx, Or.inr rfl⟩, rfl, rfl, rfl⟩
    · exact ⟨⟨.Wall, 0, y⟩, by
        refine List.mem_append.2 (Or.inl (List.mem_append.2 (Or.inr ?_)))
        exact mem_wallsSides.2 ⟨y, h1, by omega, Or.inl rfl⟩, rfl, rfl, rfl⟩
    · exact ⟨⟨.Wall, w - 1, y⟩, by
        refine List.mem_append.2 (Or.inl (List.mem_append.2 (Or.inr ?_)))
        exact mem_wallsSides.2 ⟨y, h1, by omega, Or.inr rfl⟩, rfl, rfl, rfl⟩

/-! Preservation lemmas for the food/wall invariants. -/

lemma isFoodE_eq_false_of_wall {e : Entity} (hw : isWallE e = true) : isFoodE e = false := by
  cases het : e.entity_type <;> simp_all [isWallE, isFoodE, het]

lemma scan_foodsInRange (hd : SnakePart) {w h : Nat} (hw : 5 ≤ w) (hh : 5 ≤ h)
    {es : List Entity} (b : Bool) (rng : List Nat) (hfr : foodsInRange w h es) :
    foodsInRange w h (scanEntities hd w h es b rng).entities := by
  intro e he hfe
  rcases scan_mem hd hw hh es b rng e he with hmem | ⟨_, hint⟩
  · exact hfr e hmem hfe
  · exact hint

lemma scan_wallsOnBorder (hd : SnakePart) {w h : Nat} (hw : 5 ≤ w) (hh : 5 ≤ h)
    {es : List Entity} (b : Bool) (rng : List Nat) (hwb : wallsOnBorder w h es) :
    wallsOnBorder w h (scanEntities hd w h es b rng).entities := by
  intro e he hwe
  rcases scan_mem hd hw hh es b rng e he with hmem | ⟨hfe, _⟩
  · exact hwb e hmem hwe
  · rw [isFoodE_eq_false_of_wall hwe] at hfe
    cases hfe

lemma init_foodsInRange (g : Game) (rng : List Nat) (hw : 5 ≤ g.width) (hh : 5 ≤ g.height) :
    foodsInRange g.width g.height (init_field g rng).1.entities := by
  intro e he hfe
  rcases List.mem_append.1 he with he | he
  · have hwe := walls_are_walls (List.mem_append.1 he)
    rw [isFoodE_eq_false_of_wall hwe] at hfe
    cases hfe
  · have hef := List.mem_singleton.1 he
    subst hef
    have hx := @genRange_bounds 2 (g.width - 2) (rng.headD 0) (by omega)
    have hy := @genRange_bounds 2 (g.height - 2) (rng.tail.headD 0) (by omega)
    exact ⟨hx.1, hx.2, hy.1, hy.2⟩

lemma init_wallsOnBorder (g : Game) (rng : List Nat) (hw : 5 ≤ g.width) (hh : 5 ≤ g.height) :
    wallsOnBorder g.width g.height (init_field g rng).1.entities := by
  intro e he hwe
  exact (wallAt_init_iff hw hh
    ⟨.Food, genRange 2 (g.width - 2) (rng.headD 0),
      genRange 2 (g.height - 2) (rng.tail.headD 0)⟩ rfl).1
    (wallAt_iff.2 ⟨e, he, hwe, rfl, rfl⟩)

lemma handleInput_cases (g : Game) (key : Nat) (rng : List Nat) :
    ((handleInput g key rng).1.entities = g.entities ∧
      (handleInput g key rng).1.snake = g.snake ∧
      (handleInput g key rng).1.width = g.width ∧
      (handleInput g key rng).1.height = g.height ∧
      (handleInput g key rng).1.is_alive = g.is_alive) ∨
    handleInput g key rng = init_field g rng := by
  unfold handleInput
  split_ifs <;> first | exact Or.inr rfl | simp

lemma simStep_foodsInRange (g : Game) (rng : List Nat)
    (hw : 5 ≤ g.width) (hh : 5 ≤ g.height)
    (hfr : foodsInRange g.width g.height g.entities) :
    foodsInRange g.width g.height (simStep g rng).1.entities := by
  rw [simStep_entities]
  exact scan_foodsInRange _ hw hh _ _ hfr

lemma simStep_wallsOnBorder (g : Game) (rng : List Nat)
    (hw : 5 ≤ g.width) (hh : 5 ≤ g.height)
    (hwb : wallsOnBorder g.width g.height g.entities) :
    wallsOnBorder g.width g.height (simStep g rng).1.entities := by
  rw [simStep_entities]
  exact scan_wallsOnBorder _ hw hh _ _ hwb

lemma interior_not_border {w h x y : Nat} (hw : 5 ≤ w) (hh : 5 ≤ h) :
    interiorCoord w h x y → ¬borderCoord w h x y := by
  unfold interiorCoord borderCoord
  omega

lemma update_foodsInRange (g : Game) (key : Nat) (rng : List Nat)
    (hw : 5 ≤ g.width) (hh : 5 ≤ g.height)
    (hfr : foodsInRange g.width g.height g.entities) :
    foodsInRange g.width g.height (update g key rng).1.entities := by
  unfold update
  rcases handleInput_cases g key rng with ⟨he, _, hw1, hh1, _⟩ | heq
  · by_cases hal : (handleInput g key rng).1.is_alive = true
    · rw [if_pos hal]
      rw [← hw1, ← hh1]
      exact simStep_foodsInRange _ _ (hw1 ▸ hw) (hh1 ▸ hh) (by rw [hw1, hh1, he]; exact hfr)
    · rw [if_neg hal, he]
      exact hfr
  · rw [heq]
    have hal : (init_field g rng).1.is_alive = true := rfl
    rw [if_pos hal]
    have h1 : (init_field g rng).1.width = g.width := rfl
    have h2 : (init_field g rng).1.height = g.height := rfl
    rw [← h1, ← h2]
    exact simStep_foodsInRange _ _ hw hh (init_foodsInRange g rng hw hh)

lemma update_wallsOnBorder (g : Game) (key : Nat) (rng : List Nat)
    (hw : 5 ≤ g.width) (hh : 5 ≤ g.height)
    (hwb : wallsOnBorder g.width g.height g.entities) :
    wallsOnBorder g.width g.height (update g key rng).1.entities := by
  unfold update
  rcases handleInput_cases g key rng with ⟨he, _, hw1, hh1, _⟩ | heq
  · by_cases hal : (handleInput g key rng).1.is_alive = true
    · rw [if_pos hal]
      rw [← hw1, ← hh1]
      exact simStep_wallsOnBorder _ _ (hw1 ▸ hw) (hh1 ▸ hh) (by rw [hw1, hh1, he]; exact hwb)
    · rw [if_neg hal, he]
      exact hwb
  · rw [heq]
    have hal : (init_field g rng).1.is_alive = true := rfl
    rw [if_pos hal]
    exact simStep_wallsOnBorder _ _ hw hh (init_wallsOnBorder g rng hw hh)

/-! Claim theorems. -/

/-- A minimal legal board used to instantiate theorems with hypotheses. -/
def game5 : Game :=
  { is_running := true, is_alive := true, width := 5, height := 5,
    movement := none, entities := [], snake := [] }

/-- C7: after `init_field`, for any width ≥ 5 and height ≥ 5, the state is
alive with no movement, the snake is the single segment at
`(width / 2, height / 2)` (integer division), there is exactly one food
entity and its coordinates lie in `[2, width-2) × [2, height-2)`, and the
wall entities cover exactly the border coordinates: the full rows `y = 0`
and `y = height - 1` for `x < width`, and the columns `x = 0` and
`x = width - 1` for `1 ≤ y ≤ height - 2`. -/
theorem init_field_postcondition (g : Game) (rng : List Nat)
    (hw : 5 ≤ g.width) (hh : 5 ≤ g.height) :
    (init_field g rng).1.is_alive = true ∧
    (init_field g rng).1.movement = none ∧
    (init_field g rng).1.snake = [⟨g.width / 2, g.height / 2⟩] ∧
    (∃ fx fy, interiorCoord g.width g.height fx fy ∧
      (init_field g rng).1.entities.filter isFoodE = [⟨.Food, fx, fy⟩]) ∧
    (∀ x y, wallAt (init_field g rng).1.entities x y = true ↔
      borderCoord g.width g.height x y) := by
  refine ⟨rfl, rfl, rfl, ?_, ?_⟩
  · refine ⟨genRange 2 (g.width - 2) (rng.headD 0),
      genRange 2 (g.height - 2) (rng.tail.headD 0), ?_, ?_⟩
    · have hx := @genRange_bounds 2 (g.width - 2) (rng.headD 0) (by omega)
      have hy := @genRange_bounds 2 (g.height - 2) (rng.tail.headD 0) (by omega)
      exact ⟨hx.1, hx.2, hy.1, hy.2⟩
    · show (wallsTopBottom g.width g.height ++ wallsSides g.width g.height ++
        [(⟨.Food, genRange 2 (g.width - 2) (rng.headD 0),
          genRange 2 (g.height - 2) (rng.tail.headD 0)⟩ : Entity)]).filter isFoodE = _
      rw [List.filter_append, List.filter_append, filter_foods_wallsTopBottom,
        filter_foods_wallsSides]
      simp [isFoodE]
  · intro x y
    exact wallAt_init_iff hw hh
      ⟨.Food, genRange 2 (g.width - 2) (rng.headD 0),
        genRange 2 (g.height - 2) (rng.tail.headD 0)⟩ rfl

/-- Witness for C7 at a concrete 5×5 board. -/
theorem init_field_postcondition_witness :
    (5 ≤ game5.width ∧ 5 ≤ game5.height) ∧
    ((init_field game5 [0, 0]).1.is_alive = true ∧
     (init_field game5 [0, 0]).1.movement = none ∧
     (init_field game5 [0, 0]).1.snake = [⟨game5.width / 2, game5.height / 2⟩] ∧
     (∃ fx fy, interiorCoord game5.width game5.height fx fy ∧
       (init_field game5 [0, 0]).1.entities.filter isFoodE = [⟨.Food, fx, fy⟩]) ∧
     (∀ x y, wallAt (init_field game5 [0, 0]).1.entities x y = true ↔
       borderCoord game5.width game5.height x y)) :=
  ⟨⟨by decide, by decide⟩, init_field_postcondition game5 [0, 0] (by decide) (by decide)⟩

/-- C8: every coordinate the game ever assigns to a food entity lies in the
interior margin `[2, width-2) × [2, height-2)`: `init_field` establishes the
invariant, every tick preserves it (relocation draws from the same
distribution), `init_field` also keeps all walls on the border and ticks
preserve that too, and an interior coordinate is never a border (wall)
coordinate. -/
theorem food_interior_invariant (g : Game) (key : Nat) (rng : List Nat)
    (hw : 5 ≤ g.width) (hh : 5 ≤ g.height) :
    foodsInRange g.width g.height (init_field g rng).1.entities ∧
    wallsOnBorder g.width g.height (init_field g rng).1.entities ∧
    (foodsInRange g.width g.height g.entities →
      foodsInRange g.width g.height (update g key rng).1.entities) ∧
    (wallsOnBorder g.width g.height g.entities →
      wallsOnBorder g.width g.height (update g key rng).1.entities) ∧
    (∀ x y, interiorCoord g.width g.height x y → ¬borderCoord g.width g.height x y) :=
  ⟨init_foodsInRange g rng hw hh,
   init_wallsOnBorder g rng hw hh,
   update_foodsInRange g key rng hw hh,
   update_wallsOnBorder g key rng hw hh,
   fun _ _ => interior_not_border hw hh⟩

/-- Witness for C8 at a concrete 5×5 board. -/
theorem food_interior_invariant_witness :
    (5 ≤ game5.width ∧ 5 ≤ game5.height) ∧
    (foodsInRange game5.width game5.height (init_field game5 [0, 0]).1.entities ∧
     wallsOnBorder game5.width game5.height (init_field game5 [0, 0]).1.entities ∧
     (foodsInRange game5.width game5.height game5.entities →
       foodsInRange game5.width game5.height (update game5 0 [0, 0]).1.entities) ∧
     (wallsOnBorder game5.width game5.height game5.entities →
       wallsOnBorder game5.width game5.height (update game5 0 [0, 0]).1.entities) ∧
     (∀ x y, interiorCoord game5.width game5.height x y →
       ¬borderCoord game5.width game5.height x y)) :=
  ⟨⟨by decide, by decide⟩, food_interior_invariant game5 0 [0, 0] (by decide) (by decide)⟩

lemma update_alive_eq (g : Game) (key : Nat) (rng : List Nat) (ha : g.is_alive = true) :
    update g key rng =
      simStep { g with
        is_running := if key = 27 then false else g.is_running
        movement := applyDir g.movement key } rng := by
  simp only [update]
  rw [handleInput_alive g key rng ha]
  simp [ha]

lemma simStep_cases (g : Game) (rng : List Nat) (hs : g.snake ≠ []) (ha : g.is_alive = true) :
    ((simStep g rng).1.is_alive = true →
      ((simStep g rng).1.snake.length = g.snake.length + 1 ↔
        foodAt g.entities (lastD (step_forward g.movement g.snake)).x
          (lastD (step_forward g.movement g.snake)).y = true)) ∧
    ((simStep g rng).1.is_alive = false → (simStep g rng).1.snake.length = g.snake.length) := by
  simp only [simStep]
  split_ifs with hdied hself hgrow
  · refine ⟨fun hcontra => absurd hcontra (by simp), fun _ => ?_⟩
    exact length_step_forward _ hs
  · refine ⟨fun hcontra => absurd hcontra (by simp), fun _ => ?_⟩
    exact length_step_forward _ hs
  · refine ⟨fun _ => ?_, fun hcontra => ?_⟩
    · have hgrEq := scan_grow_eq (lastD (step_forward g.movement g.snake)) g.width g.height
        g.entities false rng (by simpa using hdied)
      rw [hgrow] at hgrEq
      constructor
      · intro _
        simpa using hgrEq.symm
      · intro _
        show (step_forward g.movement (⟨0, 0⟩ :: step_forward g.movement g.snake)).length =
          g.snake.length + 1
        rw [length_step_forward_cons, length_step_forward _ hs]
    · have : g.is_alive = false := hcontra
      rw [ha] at this
      cases this
  · refine ⟨fun _ => ?_, fun hcontra => ?_⟩
    · have hgrEq := scan_grow_eq (lastD (step_forward g.movement g.snake)) g.width g.height
        g.entities false rng (by simpa using hdied)
      have hgrow' : (scanEntities (lastD (step_forward g.movement g.snake)) g.width g.height
          g.entities false rng).grow = false := by simpa using hgrow
      rw [hgrow'] at hgrEq
      have hfoodF : foodAt g.entities (lastD (step_forward g.movement g.snake)).x
          (lastD (step_forward g.movement g.snake)).y = false := by simpa using hgrEq.symm
      rw [hfoodF]
      have hlen : (step_forward g.movement g.snake).length = g.snake.length :=
        length_step_forward _ hs
      constructor
      · intro hc
        rw [hlen] at hc
        omega
      · intro hc
        cases hc
    · have : g.is_alive = false := hcontra
      rw [ha] at this
      cases this

/-- C4: on a tick taken while alive (any key), if the post-tick state is
still alive then the snake length grew by exactly one precisely when the
new head (one `step_forward` from the pre-tick snake under the post-input
direction) sits on a pre-tick food entity; on a death tick the length is
unchanged. -/
theorem tick_length_iff_food (g : Game) (key : Nat) (rng : List Nat)
    (ha : g.is_alive = true) (hs : g.snake ≠ []) :
    ((update g key rng).1.is_alive = true →
      ((update g key rng).1.snake.length = g.snake.length + 1 ↔
        foodAt g.entities
          (lastD (step_forward (applyDir g.movement key) g.snake)).x
          (lastD (step_forward (applyDir g.movement key) g.snake)).y = true)) ∧
    ((update g key rng).1.is_alive = false →
      (update g key rng).1.snake.length = g.snake.length) := by
  rw [update_alive_eq g key rng ha]
  exact simStep_cases
    { g with
      is_running := if key = 27 then false else g.is_running
      movement := applyDir g.movement key } rng hs ha

/-- Witness for C4 on the initial board with key `d` and no food ahead. -/
theorem tick_length_iff_food_witness :
    ((gameNew [0, 0]).1.is_alive = true ∧ (gameNew [0, 0]).1.snake ≠ []) ∧
    (((update (gameNew [0, 0]).1 100 []).1.is_alive = true →
      ((update (gameNew [0, 0]).1 100 []).1.snake.length =
          (gameNew [0, 0]).1.snake.length + 1 ↔
        foodAt (gameNew [0, 0]).1.entities
          (lastD (step_forward (applyDir (gameNew [0, 0]).1.movement 100)
            (gameNew [0, 0]).1.snake)).x
          (lastD (step_forward (applyDir (gameNew [0, 0]).1.movement 100)
            (gameNew [0, 0]).1.snake)).y = true)) ∧
     ((update (gameNew [0, 0]).1 100 []).1.is_alive = false →
      (update (gameNew [0, 0]).1 100 []).1.snake.length =
        (gameNew [0, 0]).1.snake.length)) :=
  ⟨⟨by decide, by decide⟩,
   tick_length_iff_food (gameNew [0, 0]).1 100 [] (by decide) (by decide)⟩

/-- The direction a key code requests (the key → direction mapping of the
source's match arms). -/
def requested (key : Nat) : Option Movement :=
  if key = 119 ∨ key = 87 then some .Up
  else if key = 97 ∨ key = 65 then some .Left
  else if key = 115 ∨ key = 83 then some .Down
  else if key = 100 ∨ key = 68 then some .Right
  else none

/-- The exact opposite of a direction. -/
def opposite : Movement → Movement
  | .Up => .Down
  | .Down => .Up
  | .Left => .Right
  | .Right => .Left

/-- C5: the reversal guard.  On an alive state, a tick whose key requests
direction `d` leaves `movement` unchanged when the current direction is the
exact opposite of `d`, and otherwise sets it to `d` (including from the
initial `none`, and including a same-direction repeat). -/
theorem reversal_guard (g : Game) (key : Nat) (rng : List Nat) (d : Movement)
    (ha : g.is_alive = true) (hk : requested key = some d) :
    (update g key rng).1.movement =
      if g.movement = some (opposite d) then g.movement else some d := by
  rw [update_alive_eq g key rng ha, simStep_movement]
  show applyDir g.movement key = _
  unfold requested at hk
  split_ifs at hk with h1 h2 h3 h4
  · injection hk with he
    subst he
    simp only [applyDir, if_pos h1]
    by_cases hm : g.movement = some .Down <;> simp [hm, opposite]
  · injection hk with he
    subst he
    simp only [applyDir, if_neg h1, if_pos h2]
    by_cases hm : g.movement = some .Right <;> simp [hm, opposite]
  · injection hk with he
    subst he
    simp only [applyDir, if_neg h1, if_neg h2, if_pos h3]
    by_cases hm : g.movement = some .Up <;> simp [hm, opposite]
  · injection hk with he
    subst he
    simp only [applyDir, if_neg h1, if_neg h2, if_neg h3, if_pos h4]
    by_cases hm : g.movement = some .Left <;> simp [hm, opposite]

/-- Witness for C5: pressing `w` on the fresh board sets movement to Up. -/
theorem reversal_guard_witness :
    ((gameNew [0, 0]).1.is_alive = true ∧ requested 119 = some .Up) ∧
    (update (gameNew [0, 0]).1 119 []).1.movement =
      (if (gameNew [0, 0]).1.movement = some (opposite .Up)
        then (gameNew [0, 0]).1.movement else some .Up) :=
  ⟨⟨by decide, by decide⟩,
   reversal_guard (gameNew [0, 0]).1 119 [] .Up (by decide) (by decide)⟩

/-- C6: a new head that sits on a food entity and on a non-head body
segment of the post-step snake still kills the snake (the entity scan runs
before — and does not disable — the self-collision scan), the snake length
is unchanged on that tick, and the entity scan's mutations (the food
relocation) are still applied. -/
lemma simStep_self_collision (g : Game) (rng : List Nat) (hs : g.snake ≠ [])
    (hbody : selfCollideB (step_forward g.movement g.snake)
      (lastD (step_forward g.movement g.snake)) = true) :
    (simStep g rng).1.is_alive = false ∧
    (simStep g rng).1.snake.length = g.snake.length ∧
    (simStep g rng).1.entities =
      (scanEntities (lastD (step_forward g.movement g.snake))
        g.width g.height g.entities false rng).entities := by
  simp only [simStep]
  split_ifs with hdied
  · exact ⟨rfl, length_step_forward _ hs, rfl⟩
  · exact ⟨rfl, length_step_forward _ hs, rfl⟩

theorem food_and_body_overlap_still_dies (g : Game) (key : Nat) (rng : List Nat)
    (ha : g.is_alive = true) (hs : g.snake ≠ [])
    (hfood : foodAt g.entities
      (lastD (step_forward (applyDir g.movement key) g.snake)).x
      (lastD (step_forward (applyDir g.movement key) g.snake)).y = true)
    (hbody : selfCollideB (step_forward (applyDir g.movement key) g.snake)
      (lastD (step_forward (applyDir g.movement key) g.snake)) = true) :
    (update g key rng).1.is_alive = false ∧
    (update g key rng).1.snake.length = g.snake.length ∧
    (update g key rng).1.entities =
      (scanEntities (lastD (step_forward (applyDir g.movement key) g.snake))
        g.width g.height g.entities false rng).entities := by
  rw [update_alive_eq g key rng ha]
  exact simStep_self_collision
    { g with
      is_running := if key = 27 then false else g.is_running
      movement := applyDir g.movement key } rng hs hbody

/-- A constructed state whose next head cell holds both the food and a
body segment: snake tail (5,5), middle (21,10), head (20,10), moving
right. -/
def collideGame : Game :=
  { is_running := true, is_alive := true, width := 40, height := 20,
    movement := some .Right, entities := [⟨.Food, 21, 10⟩],
    snake := [⟨5, 5⟩, ⟨21, 10⟩, ⟨20, 10⟩] }

/-- Witness for C6 on `collideGame`. -/
theorem food_and_body_overlap_still_dies_witness :
    (collideGame.is_alive = true ∧ collideGame.snake ≠ [] ∧
     foodAt collideGame.entities
       (lastD (step_forward (applyDir collideGame.movement 0) collideGame.snake)).x
       (lastD (step_forward (applyDir collideGame.movement 0) collideGame.snake)).y = true ∧
     selfCollideB (step_forward (applyDir collideGame.movement 0) collideGame.snake)
       (lastD (step_forward (applyDir collideGame.movement 0) collideGame.snake)) = true) ∧
    ((update collideGame 0 []).1.is_alive = false ∧
     (update collideGame 0 []).1.snake.length = collideGame.snake.length ∧
     (update collideGame 0 []).1.entities =
       (scanEntities (lastD (step_forward (applyDir collideGame.movement 0) collideGame.snake))
         collideGame.width collideGame.height collideGame.entities false []).entities) :=
  ⟨⟨by decide, by decide, by decide, by decide⟩,
   food_and_body_overlap_still_dies collideGame 0 [] (by decide) (by decide)
     (by decide) (by decide)⟩

/-- C9: in every state reachable from `Game::new` by ticks, the snake
sequence is non-empty, so the `unwrap` calls on the snake's front/back in
`step_forward` (and the back/iter accesses in `update` and `render`) never
hit the empty case. -/
theorem reachable_snake_ne_nil (g : Game) (h : Reachable g) : g.snake ≠ [] := by
  induction h with
  | new_game rng =>
    show (gameNew rng).1.snake ≠ []
    simp [gameNew, init_field]
  | tick g key rng _ ih =>
    show (update g key rng).1.snake ≠ []
    unfold update
    rcases handleInput_cases g key rng with ⟨_, hsn, _, _, _⟩ | heq
    · by_cases hal : (handleInput g key rng).1.is_alive = true
      · rw [if_pos hal]
        exact simStep_snake_ne_nil _ _ (by rw [hsn]; exact ih)
      · rw [if_neg hal, hsn]
        exact ih
    · rw [heq]
      have hal : (init_field g rng).1.is_alive = true := rfl
      rw [if_pos hal]
      exact simStep_snake_ne_nil _ _ (by simp [init_field])

/-- Witness for C9 at the initial state. -/
theorem reachable_snake_ne_nil_witness : (gameNew [0, 0]).1.snake ≠ [] :=
  reachable_snake_ne_nil (gameNew [0, 0]).1 (Reachable.new_game [0, 0])

/-- C10: the food relocation performed when the snake eats does not exclude
cells occupied by the snake.  Concretely: from `Game::new` with random
draws putting the food at (21,10), one tick with key `d` eats that food
(the length grows by one) and, with relocation draws 19 and 8 again, the
relocated food sits at (21,10), which is occupied by a snake body segment
of the post-tick snake. -/
theorem food_relocation_onto_snake :
    Reachable (update (gameNew [19, 8]).1 100 [19, 8]).1 ∧
    foodAt (gameNew [19, 8]).1.entities 21 10 = true ∧
    (update (gameNew [19, 8]).1 100 [19, 8]).1.snake.length =
      (gameNew [19, 8]).1.snake.length + 1 ∧
    foodAt (update (gameNew [19, 8]).1 100 [19, 8]).1.entities 21 10 = true ∧
    (⟨21, 10⟩ : SnakePart) ∈ (update (gameNew [19, 8]).1 100 [19, 8]).1.snake :=
  ⟨Reachable.tick _ 100 [19, 8] (Reachable.new_game [19, 8]),
   by decide, by decide, by decide, by decide⟩

/-- A constructed alive state about to eat: single-segment snake at
(20,10) moving right with the food at (21,10). -/
def eatGame : Game :=
  { is_running := true, is_alive := true, width := 40, height := 20,
    movement := some .Right, entities := [⟨.Food, 21, 10⟩], snake := [⟨20, 10⟩] }

/-- Counterexample to C1 as stated: on this eating tick the length does
grow by one, but the final head is NOT the cell one step from the pre-tick
head (it is two steps away, because the growth re-advance moves the head a
second cell). -/
theorem eat_tick_head_not_one_cell :
    eatGame.is_alive = true ∧
    foodAt eatGame.entities (stepPos .Right (lastD eatGame.snake)).x
      (stepPos .Right (lastD eatGame.snake)).y = true ∧
    (update eatGame 0 []).1.snake.length = eatGame.snake.length + 1 ∧
    lastD (update eatGame 0 []).1.snake ≠ stepPos .Right (lastD eatGame.snake) := by
  decide

lemma simStep_eat (g : Game) (rng : List Nat) (d : Movement) (hs : g.snake ≠ [])
    (hm : g.movement = some d)
    (hfood : foodAt g.entities (stepPos d (lastD g.snake)).x
      (stepPos d (lastD g.snake)).y = true)
    (hsurv : (simStep g rng).1.is_alive = true) :
    (simStep g rng).1.snake.length = g.snake.length + 1 ∧
    lastD (simStep g rng).1.snake = stepPos d (stepPos d (lastD g.snake)) := by
  have hnh : lastD (step_forward g.movement g.snake) = stepPos d (lastD g.snake) := by
    rw [hm, lastD_step_forward_some]
  simp only [simStep] at hsurv ⊢
  split_ifs at hsurv ⊢ with hdied hself hgrow
  · constructor
    · show (step_forward g.movement (⟨0, 0⟩ :: step_forward g.movement g.snake)).length =
        g.snake.length + 1
      rw [length_step_forward_cons, length_step_forward _ hs]
    · show lastD (step_forward g.movement (⟨0, 0⟩ :: step_forward g.movement g.snake)) =
        stepPos d (stepPos d (lastD g.snake))
      rw [hm, lastD_step_forward_some,
        lastD_cons_of_ne_nil _ (step_forward_ne_nil _ hs)]
      rw [hm] at hnh
      rw [hnh]
  · exfalso
    have hgrEq := scan_grow_eq (lastD (step_forward g.movement g.snake)) g.width g.height
      g.entities false rng (by simpa using hdied)
    rw [← hnh] at hfood
    rw [hfood] at hgrEq
    simp at hgrEq
    exact hgrow hgrEq

/-- C1 amended: on a tick where the snake eats (post-input direction `d`,
the cell one step ahead holds a food entity, and the snake survives the
tick), the length grows by exactly one but the final head position is
exactly TWO cells from the pre-tick head in direction `d`: the growth
mechanism (insert placeholder at the front, then advance again) advances
the head a second cell. -/
theorem eat_tick_growth_two_cells (g : Game) (key : Nat) (rng : List Nat) (d : Movement)
    (ha : g.is_alive = true) (hs : g.snake ≠ [])
    (hm : applyDir g.movement key = some d)
    (hfood : foodAt g.entities (stepPos d (lastD g.snake)).x
      (stepPos d (lastD g.snake)).y = true)
    (hsurv : (update g key rng).1.is_alive = true) :
    (update g key rng).1.snake.length = g.snake.length + 1 ∧
    lastD (update g key rng).1.snake = stepPos d (stepPos d (lastD g.snake)) := by
  rw [update_alive_eq g key rng ha] at hsurv ⊢
  exact simStep_eat
    { g with
      is_running := if key = 27 then false else g.is_running
      movement := applyDir g.movement key } rng d hs hm hfood hsurv

/-- Witness for the amended C1 on `eatGame`. -/
theorem eat_tick_growth_two_cells_witness :
    (eatGame.is_alive = true ∧ eatGame.snake ≠ [] ∧
     applyDir eatGame.movement 0 = some .Right ∧
     foodAt eatGame.entities (stepPos .Right (lastD eatGame.snake)).x
       (stepPos .Right (lastD eatGame.snake)).y = true ∧
     (update eatGame 0 []).1.is_alive = true) ∧
    ((update eatGame 0 []).1.snake.length = eatGame.snake.length + 1 ∧
     lastD (update eatGame 0 []).1.snake =
       stepPos .Right (stepPos .Right (lastD eatGame.snake))) :=
  ⟨⟨by decide, by decide, by decide, by decide, by decide⟩,
   eat_tick_growth_two_cells eatGame 0 [] .Right (by decide) (by decide) (by decide)
     (by decide) (by decide)⟩

/-- Counterexample to C2 as stated: from a reachable alive state that is
moving right, the Escape tick sets running to false but it does NOT leave
the snake unchanged — the simulation step still runs, so the snake moves. -/
theorem quit_tick_still_steps :
    (update (gameNew [0, 1]).1 100 []).1.is_alive = true ∧
    (update (update (gameNew [0, 1]).1 100 []).1 27 []).1.is_running = false ∧
    (update (update (gameNew [0, 1]).1 100 []).1 27 []).1.snake ≠
      (update (gameNew [0, 1]).1 100 []).1.snake := by
  decide

/-- C2 amended: the Quit key sets `running := false` and the input handling
mutates nothing else, but the tick then proceeds normally: if the state is
alive the simulation step still runs (and may move the snake, eat food, or
kill); only when not alive is the rest of the state untouched. -/
theorem quit_key_behaviour (g : Game) (rng : List Nat) :
    update g 27 rng =
      (if g.is_alive = true then simStep { g with is_running := false } rng
       else ({ g with is_running := false }, rng)) := by
  simp only [update, handleInput]
  by_cases hal : g.is_alive = true <;> simp [hal]

/-- A reachable dead state: from `Game::new` with the food at (2,2), ten
`w` ticks march the snake from (20,10) up into the top wall at (20,0). -/
def deadGame : Game :=
  (List.replicate 10 119).foldl (fun g k => (update g k []).1) (gameNew [0, 0]).1

lemma reachable_ticks (g : Game) (keys : List Nat) (h : Reachable g) :
    Reachable (keys.foldl (fun g k => (update g k []).1) g) := by
  induction keys generalizing g with
  | nil => exact h
  | cons k ks ih => exact ih _ (Reachable.tick g k [] h)

/-- Counterexample to C3 as stated: `deadGame` is a reachable state with
`alive = false` and direction Up; the `a` key tick nevertheless changes the
direction to Left — directional input is NOT ignored while dead. -/
theorem dead_directional_input_changes_direction :
    Reachable deadGame ∧
    deadGame.is_alive = false ∧
    deadGame.movement = some .Up ∧
    (update deadGame 97 []).1.movement = some .Left := by
  refine ⟨?_, by decide, by decide, by decide⟩
  exact reachable_ticks (gameNew [0, 0]).1 (List.replicate 10 119)
    (Reachable.new_game [0, 0])

/-- C3 amended: while not alive, a directional key still updates the
direction, under exactly the same reversal-guard rule as while alive; the
simulation step is skipped, so nothing else in the state changes. -/
theorem dead_tick_applies_direction_keys (g : Game) (key : Nat) (rng : List Nat)
    (hd : g.is_alive = false) (hk : requested key ≠ none) :
    update g key rng = ({ g with movement := applyDir g.movement key }, rng) := by
  have h27 : key ≠ 27 := by
    intro h
    subst h
    exact hk (by decide)
  have hr : ¬(key = 114 ∨ key = 82) := by
    rintro (rfl | rfl) <;> exact hk (by decide)
  simp only [update]
  rw [handleInput_not_special g key rng h27 hr]
  simp [hd]

/-- A constructed dead state used to instantiate the amended C3. -/
def deadIdle : Game :=
  { is_running := true, is_alive := false, width := 40, height := 20,
    movement := none, entities := [], snake := [⟨20, 10⟩] }

/-- Witness for the amended C3: pressing `w` while dead sets the stored
direction to Up and changes nothing else. -/
theorem dead_tick_applies_direction_keys_witness :
    (deadIdle.is_alive = false ∧ requested 119 ≠ none) ∧
    update deadIdle 119 [] =
      ({ deadIdle with movement := applyDir deadIdle.movement 119 }, []) :=
  ⟨⟨by decide, by decide⟩,
   dead_tick_applies_direction_keys deadIdle 119 [] (by decide) (by decide)⟩
